import Mathlib

/-!
Verification development for `evry`, a shell-script-centric task scheduler.

Embedded components:
* the duration parser (`src/parser.rs`, `parse_time`) together with the
  duration grammar (the pest grammar `time.pest` is referenced by
  `parser.rs` but its file is not part of the sources available here, so
  the tokenizer below is modelled from the spec's grammar description);
* the scheduling decision engine (`src/main.rs`, the tail of `fn evry`
  after the current time has been sampled).

Machine integers: all arithmetic in the source is Rust `u128`.  We model
values as `Nat` below `2 ^ 128` and make overflow explicit with `% 2 ^ 128`
(the wrapping semantics of a release build; a debug build would panic at
the same spots — either way no overflow *error value* is produced).
-/

namespace Evry

/-- The `u128` modulus: arithmetic in the source is unsigned 128-bit. -/
def U128_MOD : Nat := 2 ^ 128

/-- Wrapping `u128` subtraction `a - b` (release-build semantics), for
`a, b < U128_MOD`. -/
def u128sub (a b : Nat) : Nat := (a + U128_MOD - b) % U128_MOD

/-- Wrapping `u128` addition (release-build semantics). -/
def u128add (a b : Nat) : Nat := (a + b) % U128_MOD

/-! ### Unit constants (src/parser.rs lines 30-42) -/

/-- `const YEAR_MILLIS: u128 = 31556952000` -/
def YEAR_MILLIS : Nat := 31556952000
/-- `const MONTH_MILLIS: u128 = 2592000000` -/
def MONTH_MILLIS : Nat := 2592000000
/-- `const WEEK_MILLIS: u128 = 604800000` -/
def WEEK_MILLIS : Nat := 604800000
/-- `const DAY_MILLIS: u128 = 86400000` -/
def DAY_MILLIS : Nat := 86400000
/-- `const HOUR_MILLIS: u128 = 3600000` -/
def HOUR_MILLIS : Nat := 3600000
/-- `const MINUTE_MILLIS: u128 = 60000` -/
def MINUTE_MILLIS : Nat := 60000
/-- `const SECOND_MILLIS: u128 = 1000` -/
def SECOND_MILLIS : Nat := 1000

/-- The singular unit rules of the grammar, i.e. the `Rule::year` ..
`Rule::second` variants matched in `src/parser.rs` lines 85-92. -/
inductive Rule where
  | year | month | week | day | hour | minute | second
deriving DecidableEq, Repr

/-- The `match .. as_rule()` table of `src/parser.rs` lines 85-93,
mapping a unit rule to its millisecond constant. -/
def unit_millis : Rule → Nat
  | .year => YEAR_MILLIS
  | .month => MONTH_MILLIS
  | .week => WEEK_MILLIS
  | .day => DAY_MILLIS
  | .hour => HOUR_MILLIS
  | .minute => MINUTE_MILLIS
  | .second => SECOND_MILLIS

/-! ### The duration grammar (tokenizer)

Modelled from the spec: the pest grammar `time.pest` named by
`#[grammar = "time.pest"]` in `src/parser.rs` is not among the sources
here, so the grammar is taken from the spec:

  file := duration_term (separator duration_term)* EOF
  separator := whitespace | "," (zero or more, any mix)
  duration_term := quantity unit
  quantity := digits, optionally containing underscores/commas as visual
              separators
  unit := a spelling of year/month/week/day/hour/minute/second, singular
          or plural, with abbreviations wk/wks, d, hr/hrs, min/mins,
          sec/secs; longest spelling tried first.

The tokenizer keeps the *raw matched text* of every quantity, because
`src/parser.rs` (lines 62-68) re-parses that text with Rust's
`str::parse::<u128>`. -/

/-- Whitespace characters (separator rule / pest implicit whitespace). -/
def isWhite (c : Char) : Bool := c = ' ' || c = '\t' || c = '\n' || c = '\r'

/-- A separator character between duration terms: whitespace or a comma. -/
def isSep (c : Char) : Bool := isWhite c || c = ','

/-- ASCII digit test. -/
def isDigit (c : Char) : Bool := '0' ≤ c && c ≤ '9'

/-- Drop leading separator characters. -/
def skipSeps : List Char → List Char
  | [] => []
  | c :: cs => if isSep c then skipSeps cs else c :: cs

/-- Modelled from the spec: scan a quantity token — digits with optional
internal underscore/comma visual separators (a separator character is
part of the quantity only when a digit follows it directly). Returns the
raw matched characters and the rest of the input. -/
def takeQuantRest : List Char → List Char × List Char
  | [] => ([], [])
  | [c] => if isDigit c then ([c], []) else ([], [c])
  | c :: c' :: cs =>
    if isDigit c then
      let (q, r) := takeQuantRest (c' :: cs)
      (c :: q, r)
    else if (c = '_' || c = ',') && isDigit c' then
      let (q, r) := takeQuantRest (c' :: cs)
      (c :: q, r)
    else ([], c :: c' :: cs)

/-- Modelled from the spec: a quantity must start with a digit. -/
def takeQuant (cs : List Char) : Option (List Char × List Char) :=
  match cs with
  | [] => none
  | c :: _ => if isDigit c then some (takeQuantRest cs) else none

/-- Modelled from the spec: the recognized unit spellings, longest first,
each mapped to the singular rule that `src/parser.rs` lines 74-93
classifies it as. -/
def unitSpellings : List (List Char × Rule) :=
  [ ("minutes".data, .minute), ("seconds".data, .second),
    ("minute".data, .minute), ("second".data, .second), ("months".data, .month),
    ("month".data, .month), ("years".data, .year), ("weeks".data, .week),
    ("hours".data, .hour),
    ("year".data, .year), ("week".data, .week), ("days".data, .day),
    ("hour".data, .hour), ("mins".data, .minute), ("secs".data, .second),
    ("day".data, .day), ("wks".data, .week), ("hrs".data, .hour),
    ("min".data, .minute), ("sec".data, .second),
    ("wk".data, .week), ("hr".data, .hour), ("d".data, .day) ]

/-- Try the spellings in order; on a prefix match return the rule and the
rest of the input. -/
def matchUnitIn : List (List Char × Rule) → List Char → Option (Rule × List Char)
  | [], _ => none
  | (sp, r) :: rest, cs =>
    if sp.isPrefixOf cs then some (r, cs.drop sp.length) else matchUnitIn rest cs

/-- Modelled from the spec: tokenize a (separator-stripped, non-empty)
input into `(raw quantity text, unit rule)` pairs; `none` is a grammar
(syntax) failure of the whole input. Fuel is the input length: every
iteration consumes at least the non-empty quantity. -/
def tokenizeAux : Nat → List Char → Option (List (List Char × Rule))
  | _, [] => some []
  | 0, _ :: _ => none
  | fuel + 1, c :: cs =>
    match takeQuant (c :: cs) with
    | none => none
    | some (q, rest) =>
      match matchUnitIn unitSpellings (skipSeps rest) with
      | none => none
      | some (r, rest') =>
        match tokenizeAux fuel (skipSeps rest') with
        | none => none
        | some ts => some ((q, r) :: ts)

/-- Modelled from the spec: parse the whole input against the grammar's
`file` rule. An empty or separator-only string fails (`ParseError::Empty`);
at least one duration term is required and the input must be consumed to
EOF. -/
def tokenize (s : String) : Option (List (List Char × Rule)) :=
  match skipSeps s.data with
  | [] => none
  | c :: cs => tokenizeAux (c :: cs).length (c :: cs)

/-! ### Rust quantity conversion (src/parser.rs lines 62-68)

The matched quantity text is converted with
`.as_str().trim().parse::<u128>().expect("could not parse input into an integer")`:
Rust's `str::parse::<u128>` succeeds exactly on an optional sign followed
by one or more ASCII *digits* whose value fits in `u128` — it does NOT
accept underscore or comma separators; on failure the `.expect` panics. -/

/-- `str::trim`: drop surrounding whitespace. -/
def trimChars (cs : List Char) : List Char :=
  ((cs.dropWhile isWhite).reverse.dropWhile isWhite).reverse

/-- Numeric value of the digit character `c`. -/
def charDigit (c : Char) : Nat := c.toNat - '0'.toNat

/-- Accumulate the value of a digit string; `none` on any non-digit. -/
def digitsValAux : Nat → List Char → Option Nat
  | acc, [] => some acc
  | acc, c :: cs =>
    if isDigit c then digitsValAux (acc * 10 + charDigit c) cs else none

/-- Rust's `str::parse::<u128>` on the trimmed quantity text (grammar
quantities never carry a sign, so the optional leading `+` is omitted):
`some` iff the text is one or more ASCII digits whose value fits in
`u128`; `none` means the `.expect` in `src/parser.rs` line 68 panics. -/
def rustParseU128 (cs : List Char) : Option Nat :=
  match trimChars cs with
  | [] => none
  | t :: ts =>
    match digitsValAux 0 (t :: ts) with
    | none => none
    | some v => if v < U128_MOD then some v else none

/-! ### parse_time (src/parser.rs lines 47-104) -/

/-- Result of `parse_time`: `Ok(total)`, a propagated pest parse error
(the `?` on line 48), or a panic from one of the `.expect`/`.unwrap`
calls. -/
inductive ParseResult where
  | ok (ms : Nat)
  | err
  | panic (msg : String)
deriving DecidableEq, Repr

/-- The accumulation loop of `parse_time` (src/parser.rs lines 53-102):
for each `(quantity, unit)` pair, convert the quantity text with Rust's
`parse::<u128>` (panicking on failure, line 68) and run
`total_millis += unit_millis * quantity` in wrapping `u128` arithmetic
(line 95). -/
def parseLoop : List (List Char × Rule) → Nat → ParseResult
  | [], total => .ok total
  | (q, r) :: ts, total =>
    match rustParseU128 q with
    | none => .panic "could not parse input into an integer"
    | some quantity => parseLoop ts ((total + unit_millis r * quantity) % U128_MOD)

/-- `parse_time` (src/parser.rs lines 47-104): run the grammar on the
input (a failure is returned as the boxed error, line 48), then fold the
duration terms into a running `u128` millisecond total. -/
def parse_time (s : String) : ParseResult :=
  match tokenize s with
  | none => .err
  | some ts => parseLoop ts 0

/-- The exact (unwrapped) millisecond contribution of one duration term:
quantity times the unit's constant from the table. -/
def termMillis (t : List Char × Rule) : Nat :=
  unit_millis t.2 * ((rustParseU128 t.1).getD 0)

/-! ### The scheduling decision engine (src/main.rs lines 249-302)

`fn evry` samples the clock once (`let now = utils::epoch_millis()`,
line 232) and then decides.  The embedding below is that decision tail,
parameterized by the one sampled `now`; its observable effects are the
exit code, the value written to the tag file (`cli.tag.write(now)`,
persisted via `Tag::write` in src/file.rs lines 114-118), and the
`till_next_run` value computed in the not-elapsed branch (line 282). -/

/-- Observable outcome of one `evry` run decision. -/
structure RunResult where
  /-- the `i32` returned by `fn evry` (process exit code) -/
  exitCode : Nat
  /-- the value written to the tag file, if any write happens -/
  written : Option Nat
  /-- `till_next_run = last_ran_at + run_every - now` (src/main.rs line
  282), computed only in the not-elapsed branch -/
  tillNext : Option Nat
deriving DecidableEq, Repr

/-- The decision tail of `fn evry` (src/main.rs lines 249-302).
`tagExists` is `cli.tag.file_exists()`; when the tag exists,
`lastRanAt` is the value read from the tag file; `now` is the single
clock sample from line 232; `runEvery` is the parsed duration.
Line 263 compares `now - last_ran_at > run_every` in `u128`: the
subtraction is unchecked, so it wraps (release) / panics (debug) when
`now < last_ran_at`; we embed the wrapping semantics. -/
def evryRun (tagExists : Bool) (lastRanAt now runEvery : Nat) : RunResult :=
  if !tagExists then
    { exitCode := 0, written := some now, tillNext := none }
  else if runEvery < u128sub now lastRanAt then
    { exitCode := 0, written := some now, tillNext := none }
  else
    { exitCode := 2, written := none,
      tillNext := some (u128sub (u128add lastRanAt runEvery) now) }

end Evry

namespace Evry

/-! ### Arithmetic helper lemmas about the wrapping `u128` operations -/

/-- `U128_MOD` is positive. -/
theorem U128_MOD_pos : 0 < U128_MOD := by decide

/-- When the clock is sane (`b ≤ a`) and `a` is a `u128` value, the
wrapping subtraction agrees with the exact one. -/
theorem u128sub_of_le (a b : Nat) (hb : b ≤ a) (ha : a < U128_MOD) :
    u128sub a b = a - b := by
  unfold u128sub
  have h1 : a + U128_MOD - b = (a - b) + U128_MOD := by omega
  rw [h1, Nat.add_mod_right, Nat.mod_eq_of_lt (by omega)]

/-- `(a + b) - c` computed with the wrapping `u128` operations agrees
with the exact value when `c ≤ a + b` and the result fits. -/
theorem u128sub_u128add (a b c : Nat) (hc : c < U128_MOD) (hca : c ≤ a + b)
    (hfit : a + b - c < U128_MOD) : u128sub (u128add a b) c = a + b - c := by
  unfold u128sub u128add
  have h1 : (a + b) % U128_MOD + U128_MOD - c = (a + b) % U128_MOD + (U128_MOD - c) := by
    omega
  rw [h1, Nat.mod_add_mod]
  have h2 : a + b + (U128_MOD - c) = (a + b - c) + U128_MOD := by omega
  rw [h2, Nat.add_mod_right, Nat.mod_eq_of_lt hfit]

end Evry

namespace Evry

/-- C1: when the tag exists and the clock is sane (`last_run_ms ≤ now_ms`,
both `u128` values), the run-and-persist outcome (exit code 0, `now_ms`
written to the tag file) holds exactly when `now_ms - last_run_ms` is
strictly greater than `threshold_ms`; at exact equality the outcome is
NotElapsed (exit code 2, nothing written). -/
theorem elapsed_iff_strictly_greater (last now thr : Nat)
    (hnow : now < U128_MOD) (hle : last ≤ now) :
    ((evryRun true last now thr).exitCode = 0 ∧
        (evryRun true last now thr).written = some now ↔ thr < now - last) ∧
    (now - last = thr →
      (evryRun true last now thr).exitCode = 2 ∧
      (evryRun true last now thr).written = none) := by
  have hs : u128sub now last = now - last := u128sub_of_le now last hle hnow
  constructor
  · constructor
    · intro h
      by_contra hc
      have hneg : ¬ thr < u128sub now last := by omega
      simp [evryRun, hneg] at h
    · intro h
      have hpos : thr < u128sub now last := by omega
      simp [evryRun, hpos]
  · intro h
    have hneg : ¬ thr < u128sub now last := by omega
    simp [evryRun, hneg]

/-- C1 witness: at `threshold_ms = 1000`, `last_run_ms = 0` the boundary is
strict — `now_ms = 1001` runs and persists 1001, `now_ms = 1000` waits. -/
theorem elapsed_iff_strictly_greater_witness :
    ((evryRun true 0 1001 1000).exitCode = 0 ∧
      (evryRun true 0 1001 1000).written = some 1001) ∧
    ((evryRun true 0 1000 1000).exitCode = 2 ∧
      (evryRun true 0 1000 1000).written = none) :=
  ⟨(elapsed_iff_strictly_greater 0 1001 1000 (by decide) (by decide)).1.mpr (by decide),
   (elapsed_iff_strictly_greater 0 1000 1000 (by decide) (by decide)).2 (by decide)⟩

/-- C2: counter-evidence — with the stored `last_run_ms = 1000`, a
backward-moved clock reading `now_ms = 500` and `threshold_ms = 1000`, the
unchecked `u128` subtraction at src/main.rs line 263 wraps to
`2^128 - 500`, so the code takes the *elapsed* branch: it exits 0 and
overwrites the tag file with 500, instead of the NotElapsed outcome with a
sane remaining value that the claim requires. -/
theorem backward_clock_subtraction_wraps :
    u128sub 500 1000 = 2 ^ 128 - 500 ∧
    evryRun true 1000 500 1000 =
      { exitCode := 0, written := some 500, tillNext := none } := by decide

/-- C7: when the tag file does not exist, the outcome is unconditionally
first-run: exit code 0 and `now_ms` persisted, for every `now_ms` and
`threshold_ms`. -/
theorem first_run_unconditional (last now thr : Nat) :
    evryRun false last now thr =
      { exitCode := 0, written := some now, tillNext := none } := rfl

/-- C8: on a NotElapsed outcome (tag exists, sane clock, elapsed time at
most the threshold) nothing is written to the tag file, the exit code is
2, and the reported `till_next_run` equals
`last_run_ms + threshold_ms - now_ms` exactly. -/
theorem not_elapsed_writes_nothing (last now thr : Nat)
    (hnow : now < U128_MOD) (hthr : thr < U128_MOD)
    (hle : last ≤ now) (hne : now - last ≤ thr) :
    (evryRun true last now thr).written = none ∧
    (evryRun true last now thr).exitCode = 2 ∧
    (evryRun true last now thr).tillNext = some (last + thr - now) := by
  have hs : u128sub now last = now - last := u128sub_of_le now last hle hnow
  have hneg : ¬ thr < u128sub now last := by omega
  have ht : u128sub (u128add last thr) now = last + thr - now :=
    u128sub_u128add last thr now hnow (by omega) (by omega)
  simp [evryRun, hneg, ht]

/-- C8 witness: at `last_run_ms = 5`, `now_ms = 500`, `threshold_ms = 1000`
the tag file is untouched and 505 ms remain. -/
theorem not_elapsed_writes_nothing_witness :
    (evryRun true 5 500 1000).written = none ∧
    (evryRun true 5 500 1000).exitCode = 2 ∧
    (evryRun true 5 500 1000).tillNext = some (5 + 1000 - 500) :=
  not_elapsed_writes_nothing 5 500 1000 (by decide) (by decide) (by decide) (by decide)

/-- C10: the decision uses a single sampled `now_ms` (src/main.rs line 232
binds `now` once, before the decision): whatever branch is taken, the
value written to the tag file — when one is written at all — is exactly
that same `now_ms` the elapsed comparison used, so the stored last-run
timestamp never exceeds the `now_ms` it was compared against. -/
theorem persisted_value_is_compared_now (te : Bool) (last now thr : Nat) :
    (evryRun te last now thr).written = none ∨
    (evryRun te last now thr).written = some now := by
  cases te
  · right; rfl
  · unfold evryRun
    by_cases h : thr < u128sub now last
    · simp [h]
    · simp [h]

end Evry

namespace Evry

/-! ### Structure lemmas about the accumulation loop of `parse_time` -/

/-- If any term's quantity text is rejected by Rust's `parse::<u128>`,
the loop panics at the `.expect` regardless of the running total. -/
theorem parseLoop_panic_of_bad (ts : List (List Char × Rule)) (total : Nat)
    (h : ∃ t ∈ ts, rustParseU128 t.1 = none) :
    parseLoop ts total = .panic ("could not parse input into an integer") := by
  induction ts generalizing total with
  | nil =>
    obtain ⟨u, hu, _⟩ := h
    exact absurd hu (List.not_mem_nil u)
  | cons t ts ih =>
    obtain ⟨q, r⟩ := t
    cases hq : rustParseU128 q with
    | none => simp [parseLoop, hq]
    | some v =>
      obtain ⟨u, hu, hbad⟩ := h
      have hmem : u ∈ ts := by
        rcases List.mem_cons.mp hu with rfl | h1
        · rw [hq] at hbad; exact absurd hbad (by simp)
        · exact h1
      simpa [parseLoop, hq] using ih _ ⟨u, hmem, hbad⟩

/-- If every term's quantity text is accepted by Rust's `parse::<u128>`,
the loop returns the running total plus the exact sum of the per-term
contributions, reduced mod `2^128` once. -/
theorem parseLoop_ok_of_good (ts : List (List Char × Rule)) :
    ∀ total : Nat, total < U128_MOD →
      (∀ t ∈ ts, rustParseU128 t.1 ≠ none) →
      parseLoop ts total = .ok ((total + (ts.map termMillis).sum) % U128_MOD) := by
  induction ts with
  | nil =>
    intro total htot _
    simp [parseLoop, Nat.mod_eq_of_lt htot]
  | cons t ts ih =>
    intro total htot hgood
    obtain ⟨q, r⟩ := t
    cases hq : rustParseU128 q with
    | none => exact absurd hq (hgood (q, r) (List.mem_cons_self _ _))
    | some v =>
      have hrec := ih ((total + unit_millis r * v) % U128_MOD)
        (Nat.mod_lt _ U128_MOD_pos)
        (fun u hu => hgood u (List.mem_cons_of_mem _ hu))
      simp only [parseLoop, hq, hrec, List.map_cons, List.sum_cons, termMillis, hq]
      rw [Nat.mod_add_mod, Nat.add_assoc]
      simp

end Evry

namespace Evry

/-- C4: `parse_time` is additive and order-independent over duration
terms — any two inputs whose term sequences are permutations of each
other parse to the same result; concretely,
`parse("5weeks, 2weeks") = parse("7weeks") = 7 * 604_800_000` and
`parse("2weeks 5hrs") = parse("5hrs, 2weeks")`. -/
theorem parse_time_additive_order_independent :
    (∀ (s₁ s₂ : String) (ts₁ ts₂ : List (List Char × Rule)),
        tokenize s₁ = some ts₁ → tokenize s₂ = some ts₂ → ts₁.Perm ts₂ →
        parse_time s₁ = parse_time s₂) ∧
    parse_time ("5weeks, 2weeks") = parse_time ("7weeks") ∧
    parse_time ("7weeks") = .ok (7 * 604800000) ∧
    parse_time ("2weeks 5hrs") = parse_time ("5hrs, 2weeks") := by
  refine ⟨?_, by decide, by decide, by decide⟩
  intro s₁ s₂ ts₁ ts₂ h₁ h₂ hperm
  unfold parse_time
  rw [h₁, h₂]
  show parseLoop ts₁ 0 = parseLoop ts₂ 0
  by_cases hbad : ∃ t ∈ ts₁, rustParseU128 t.1 = none
  · obtain ⟨u, hu, hb⟩ := hbad
    rw [parseLoop_panic_of_bad ts₁ 0 ⟨u, hu, hb⟩,
        parseLoop_panic_of_bad ts₂ 0 ⟨u, hperm.mem_iff.mp hu, hb⟩]
  · push_neg at hbad
    rw [parseLoop_ok_of_good ts₁ 0 (by decide) hbad,
        parseLoop_ok_of_good ts₂ 0 (by decide)
          (fun t ht => hbad t (hperm.mem_iff.mpr ht)),
        (hperm.map termMillis).sum_eq]

/-- C4 witness: a concrete reordering obtained from the permutation part
of the theorem. -/
theorem parse_time_additive_order_independent_witness :
    parse_time ("60sec 2weeks") = parse_time ("2weeks 60sec") :=
  parse_time_additive_order_independent.1 ("60sec 2weeks") ("2weeks 60sec")
    [(['6', '0'], .second), (['2'], .week)]
    [(['2'], .week), (['6', '0'], .second)]
    (by decide) (by decide) (by decide)

/-- C5: for a duration expression accepted by the grammar whose
quantities all convert, and whose exact total fits in `u128`,
`parse_time` returns exactly the sum over the terms of quantity times the
unit's fixed millisecond constant. -/
theorem parse_time_is_sum_of_terms (s : String) (ts : List (List Char × Rule))
    (h : tokenize s = some ts)
    (hq : ∀ t ∈ ts, rustParseU128 t.1 ≠ none)
    (hsum : (ts.map termMillis).sum < U128_MOD) :
    parse_time s = .ok ((ts.map termMillis).sum) := by
  unfold parse_time
  rw [h]
  show parseLoop ts 0 = _
  rw [parseLoop_ok_of_good ts 0 (by decide) hq]
  rw [Nat.zero_add, Nat.mod_eq_of_lt hsum]

/-- C5 witness: `parse("2 months, 5 day")` is the table sum
`2*2_592_000_000 + 5*86_400_000 = 5_616_000_000` ms. -/
theorem parse_time_is_sum_of_terms_witness :
    parse_time ("2 months, 5 day") =
      .ok ((([(['2'], Rule.month), (['5'], Rule.day)]).map termMillis).sum) ∧
    (([(['2'], Rule.month), (['5'], Rule.day)]).map termMillis).sum = 5616000000 :=
  ⟨parse_time_is_sum_of_terms ("2 months, 5 day")
      [(['2'], Rule.month), (['5'], Rule.day)] (by decide) (by decide) (by decide),
   by decide⟩

/-- C6: `parse_time` rejects non-conforming input atomically — the empty
string, a whitespace-only string, a unit with no quantity, and an unknown
unit all return the propagated grammar error and never a numeric result;
and whenever the grammar rejects the input as a whole, no partial total
is returned. -/
theorem parse_time_rejects_malformed :
    parse_time ("") = .err ∧
    parse_time ("   ") = .err ∧
    parse_time ("weeks") = .err ∧
    parse_time ("5 fortnights") = .err ∧
    (∀ s : String, tokenize s = none → parse_time s = .err) := by
  refine ⟨by decide, by decide, by decide, by decide, ?_⟩
  intro s h
  unfold parse_time
  rw [h]

/-- C6 witness: a trailing malformed token makes the whole parse fail
even though the input starts with well-formed terms. -/
theorem parse_time_rejects_malformed_witness :
    parse_time ("2weeks and 5hrs") = .err :=
  parse_time_rejects_malformed.2.2.2.2 ("2weeks and 5hrs") (by decide)

/-- C3: counter-evidence — for the expression `2^127 secs` the exact
total `1000 * 2^127` exceeds `u128` range, yet `parse_time` returns
`Ok(0)`: the accumulation at src/parser.rs line 95 wrapped silently (a
debug build would panic there instead); there is no Overflow parse error
anywhere in the code. -/
theorem overflow_wraps_silently :
    parse_time ("170141183460469231731687303715884105728 secs") = .ok 0 ∧
    ((([(("170141183460469231731687303715884105728").data, Rule.second)]).map
        termMillis).sum) = 1000 * 2 ^ 127 ∧
    U128_MOD ≤ 1000 * 2 ^ 127 := by decide

/-- C9: counter-evidence — the grammar (per the spec, and per the
source's own comment at src/parser.rs line 65, which gives `3_000` as an
example numeric string) accepts `3_000 secs`, but Rust's
`str::parse::<u128>` rejects underscores, so the `.expect` at
src/parser.rs line 68 panics instead of producing `3_000_000` ms. -/
theorem separator_quantity_panics :
    tokenize ("3_000 secs") = some [(['3', '_', '0', '0', '0'], Rule.second)] ∧
    parse_time ("3_000 secs") = .panic ("could not parse input into an integer") := by
  decide

end Evry

namespace Evry

/-- C7 witness: a first run at an arbitrary concrete instant. -/
theorem first_run_unconditional_witness :
    evryRun false 9999 5 7 =
      { exitCode := 0, written := some 5, tillNext := none } :=
  first_run_unconditional 9999 5 7

/-- C10 witness: a concrete elapsed run persists exactly the compared
`now_ms`. -/
theorem persisted_value_is_compared_now_witness :
    (evryRun true 0 1001 1000).written = none ∨
    (evryRun true 0 1001 1000).written = some 1001 :=
  persisted_value_is_compared_now true 0 1001 1000

end Evry
